import Mathlib

/-!
Verification of the vehicle dynamics and autopilot control subsystem of the
minicar-roulette repository (PhysicsCar.tsx, purePursuit.ts,
straightWaypointSystem.ts, turnWaypointSystem.ts).

JavaScript numbers are modelled as elements of a linear ordered field:
rationals wherever the source only adds, multiplies, compares and divides,
and the reals wherever the source calls Math.sqrt, Math.sin or Math.atan2.
The unbounded `while` loops of the source (the lookahead walk and the two
angle-wrapping loops) are modelled with an explicit fuel parameter; a result
of `none` means the loop did not finish within the given fuel, and a result
that holds for every fuel value captures genuine non-termination.
-/

namespace Minicar

/-- A 3-component vector, mirroring THREE.Vector3 restricted to the fields the
control code reads and writes. -/
structure Vec3 (K : Type) where
  x : K
  y : K
  z : K
deriving DecidableEq, Repr

instance {K : Type} [Zero K] : Inhabited (Vec3 K) := ⟨⟨0, 0, 0⟩⟩

/-- A path sample, mirroring `WaypointLike` of purePursuit.ts:
`{ position, targetSpeed, distanceToNext }`. -/
structure Waypoint (K : Type) where
  position : Vec3 K
  targetSpeed : K
  distanceToNext : K
deriving DecidableEq, Repr

instance {K : Type} [Zero K] : Inhabited (Waypoint K) := ⟨⟨default, 0, 0⟩⟩

variable {K : Type} [LinearOrderedField K]

/-- Mirror of the source helper `clamp(x, a, b) = Math.max(a, Math.min(b, x))`
(purePursuit.ts line 35 and THREE.MathUtils.clamp). -/
def clampF (x a b : K) : K := max a (min b x)

/-- Mirror of THREE.MathUtils.lerp: `(1 - t) * x + t * y`. -/
def mathUtilsLerp (x y t : K) : K := (1 - t) * x + t * y

/-- Mirror of THREE.Vector3.lerp: componentwise `this += (v - this) * alpha`. -/
def vlerp (v w : Vec3 K) (a : K) : Vec3 K :=
  ⟨v.x + (w.x - v.x) * a, v.y + (w.y - v.y) * a, v.z + (w.z - v.z) * a⟩

/-- Squared Euclidean distance between two positions.  The source compares
distances `from.distanceTo(p)` (square roots of this quantity) with strict
`<` only; since `Real.sqrt` is strictly monotone on nonnegative inputs, the
index chosen by comparing squared distances is the index the source chooses.
The lemma `sqrt_lt_sqrt_iff_dist2` below records this correspondence. -/
def dist2 (a b : Vec3 K) : K :=
  (a.x - b.x) * (a.x - b.x) + (a.y - b.y) * (a.y - b.y) + (a.z - b.z) * (a.z - b.z)

/-- Tail of the nearest-sample scan: indices `i, i+1, ...` of the remaining
list are compared against the best index/distance so far, with strict
improvement, exactly as in the `for` loops of `getLookaheadPoint` (purePursuit.ts
lines 43-48) and `findNearestIndex` (lines 75-84). -/
def nearestScanAux (frm : Vec3 K) : List (Waypoint K) → ℕ → ℕ → K → ℕ
  | [], _, best, _ => best
  | w :: rest, i, best, bestD =>
      let d := dist2 frm w.position
      if d < bestD then nearestScanAux frm rest (i + 1) i d
      else nearestScanAux frm rest (i + 1) best bestD

/-- Index of the sample nearest to `frm`, given a nonempty list split as
head and tail: start with index 0 and scan the rest from index 1. -/
def nearestScan (frm : Vec3 K) (w0 : Waypoint K) (rest : List (Waypoint K)) : ℕ :=
  nearestScanAux frm rest 1 0 (dist2 frm w0.position)

/-- Mirror of `findNearestIndex` (purePursuit.ts lines 75-84): `-1` on an
empty list is modelled as `none`. -/
def findNearestIndexOpt (wps : List (Waypoint K)) (frm : Vec3 K) : Option ℕ :=
  match wps with
  | [] => none
  | w0 :: rest => some (nearestScan frm w0 rest)

/-- The forward-accumulation loop of `getLookaheadPoint` (purePursuit.ts lines
50-63), with explicit fuel.  One fuel unit is one iteration of the source
`while (remaining > 0)` loop; `none` means the loop had not finished when the
fuel ran out.  The loop body: advance `next = (cur+1) % n`; skip segments with
`distanceToNext <= 1e-4` without consuming budget; interpolate inside the
current segment when the remaining budget fits in it; otherwise subtract the
segment length and move on. -/
def lookaheadWalk (wps : List (Waypoint K)) : ℕ → K → ℕ → Option (Vec3 K)
  | 0, _, _ => none
  | fuel + 1, remaining, cur =>
      if remaining > 0 then
        let next := (cur + 1) % wps.length
        let segLen := (wps.getD cur default).distanceToNext
        if segLen ≤ 1 / 10000 then lookaheadWalk wps fuel remaining next
        else if remaining ≤ segLen then
          some (vlerp (wps.getD cur default).position
            (wps.getD next default).position (remaining / segLen))
        else lookaheadWalk wps fuel (remaining - segLen) next
      else some (wps.getD cur default).position

/-- Mirror of `getLookaheadPoint` (purePursuit.ts lines 39-64): empty path
returns the query position `from.clone()`; otherwise the nearest index is
found and the forward walk runs with the given fuel. -/
def getLookaheadPoint (fuel : ℕ) (wps : List (Waypoint K)) (frm : Vec3 K) (Ld : K) :
    Option (Vec3 K) :=
  match wps with
  | [] => some frm
  | w0 :: rest => lookaheadWalk wps fuel Ld (nearestScan frm w0 rest)

/-! ### Collision response (PhysicsCar.tsx, `applyCollisionPhysics`, lines 172-236) -/

/-- What one processed collision applies: the impulse on the handling body,
the impulse on the other body, the yaw torque impulse on the handling body,
and the restitution coefficient that entered the impulse formula. -/
structure CollisionOutcome where
  myImpulse : Vec3 ℝ
  otherImpulse : Vec3 ℝ
  myTorqueY : ℝ
  restitutionUsed : ℝ

/-- Mirror of `applyCollisionPhysics` (PhysicsCar.tsx lines 172-236).  Inputs
are the two masses, the contact normal (`collisionData.collisionDirection`)
and the relative velocity.  `none` models the early return when the bodies
are already separating (`relativeVelNormal > 0`).  The impulse y component is
the literal 0 of the source (horizontal-only collision); the cap scales both
planar components by `maxImpulse / impulseLength`; the spin strength uses the
pre-cap `impulseLength`, exactly as in the source where `impulseLength` is a
`const` computed before the capping branch. -/
noncomputable def applyCollisionPhysics (myMass otherMass : ℝ) (normal relVel : Vec3 ℝ) :
    Option CollisionOutcome :=
  let relativeVelNormal := relVel.x * normal.x + relVel.y * normal.y + relVel.z * normal.z
  if relativeVelNormal > 0 then none
  else
    let restitutionCoeff : ℝ := 0.4
    let impulseStrength := -(1 + restitutionCoeff) * relativeVelNormal /
      (1 / myMass + 1 / otherMass)
    let ix := normal.x * impulseStrength
    let iz := normal.z * impulseStrength
    let maxImpulse := myMass * 12
    let impulseLength := Real.sqrt (ix * ix + iz * iz)
    let ix2 := if impulseLength > maxImpulse then ix * (maxImpulse / impulseLength) else ix
    let iz2 := if impulseLength > maxImpulse then iz * (maxImpulse / impulseLength) else iz
    let spinStrength := impulseLength * 0.05
    let crossProduct := normal.x * relVel.z - normal.z * relVel.x
    some
      { myImpulse := ⟨ix2, 0, iz2⟩
        otherImpulse := ⟨-ix2, 0, -iz2⟩
        myTorqueY := if crossProduct > 0 then spinStrength else -spinStrength
        restitutionUsed := restitutionCoeff }

/-! ### Drive force (PhysicsCar.tsx, useFrame lines 557-597)

The drive-force block only adds, multiplies, compares and clamps, so it is
modelled over the rationals and stays fully executable. -/

/-- The effective drive throttle (PhysicsCar.tsx lines 563-569): forward
output is cut when the front is blocked, and a strong automatic reverse value
is forced when the front is both blocked and near. -/
def driveThrottleOf (throttle : ℚ) (frontBlocked frontNear bKey : Bool) : ℚ :=
  let d1 := if frontBlocked ∧ throttle > 0 then 0 else throttle
  if frontBlocked ∧ frontNear then min d1 (if bKey then -1 else -(7/10)) else d1

/-- The clamped engine force (PhysicsCar.tsx lines 558-579): the reverse
boost multiplies the throttle by 1.6, and the result is clamped to the
friction-circle traction ceiling `±(m * 9.81 * mu)`. -/
def clampedDriveForce (engineForce m mu throttle : ℚ) (frontBlocked frontNear bKey : Bool) : ℚ :=
  let maxTraction := m * (981/100) * mu
  let dThr := driveThrottleOf throttle frontBlocked frontNear bKey
  let reverseBoost := frontBlocked ∧ bKey ∧ dThr < 0
  let driveForce := engineForce * (if reverseBoost then dThr * (8/5) else dThr)
  max (-maxTraction) (min maxTraction driveForce)

/-- Steering-load output reduction (PhysicsCar.tsx lines 588-591): with large
steering at low speed the engine output is scaled by a factor clamped to
`[0.5, 1]`. -/
def driveSteerScaleOf (steer speed : ℚ) : ℚ :=
  let steerLoad := |steer|
  let speedSteerRatio := clampF (speed / 6) 0 1
  clampF (1 - (1/2) * steerLoad * (1 - speedSteerRatio)) (1/2) 1

/-- The scalar drive force finally applied along the forward axis
(PhysicsCar.tsx lines 578-597): the steering-load reduction multiplies the
clamped force only when driving forward (`driveThrottle > 0`); reversing is
exempt. -/
def appliedDriveForce (engineForce m mu throttle steer speed : ℚ)
    (frontBlocked frontNear bKey : Bool) : ℚ :=
  let dThr := driveThrottleOf throttle frontBlocked frontNear bKey
  let F := clampedDriveForce engineForce m mu throttle frontBlocked frontNear bKey
  if dThr > 0 then F * driveSteerScaleOf steer speed else F

/-! ### Speed hard cap (PhysicsCar.tsx, useFrame lines 793-799) -/

/-- Mirror of THREE.Vector3.length. -/
noncomputable def norm3 (v : Vec3 ℝ) : ℝ := Real.sqrt (v.x * v.x + v.y * v.y + v.z * v.z)

/-- Mirror of THREE.Vector3.normalize, which divides by `length() || 1`, so
the zero vector is left unchanged. -/
noncomputable def normalize3 (v : Vec3 ℝ) : Vec3 ℝ :=
  let len := norm3 v
  if len = 0 then v else ⟨v.x / len, v.y / len, v.z / len⟩

/-- Mirror of the end-of-tick speed hard cap (PhysicsCar.tsx lines 793-799):
`speed` is the planar speed computed at the start of the tick, `v2` the planar
velocity vector, `lv` the full linear velocity; the returned vector is the
velocity after the block (`setLinvel` in the capped branch, unchanged
otherwise). -/
noncomputable def speedHardCap (maxSpeed speed : ℝ) (v2 lv : Vec3 ℝ) : Vec3 ℝ :=
  let hardMax := maxSpeed * 1.05
  if speed > hardMax ∧ speed > 1 / 1000000 then
    let vdir := normalize3 v2
    ⟨vdir.x * hardMax, lv.y, vdir.z * hardMax⟩
  else lv

/-! ### Waypoint generators (straightWaypointSystem.ts, turnWaypointSystem.ts) -/

/-- Mirror of THREE.Vector3.distanceTo. -/
noncomputable def dist3 (a b : Vec3 ℝ) : ℝ := Real.sqrt (dist2 a b)

/-- The distance finalisation pass shared by both generators: every sample's
`distanceToNext` becomes the Euclidean distance to the following sample, and
the last sample's becomes 0.  (The straight generator writes the same values
with a wrap-indexed `next` whose wrapped case is overridden to 0, and the
turn generator checks `if (next)`; both loops compute exactly this.) -/
noncomputable def fillDistances : List (Waypoint ℝ) → List (Waypoint ℝ)
  | [] => []
  | [w] => [{ w with distanceToNext := 0 }]
  | w :: w2 :: rest =>
      { w with distanceToNext := dist3 w.position w2.position } :: fillDistances (w2 :: rest)

/-- Mirror of `StraightWaypointSystem.generate` (straightWaypointSystem.ts
lines 16-38): if the endpoints are closer than `1e-3` the method returns
early and the waypoint list stays empty; otherwise `n = max(2,
ceil(dist/spacing))` samples are interpolated between the endpoints at the
fixed target speed, and distances are filled in.  (`Math.ceil` on a negative
argument gives a nonpositive value which `max 2` absorbs, so the natural
ceiling `⌈⌉₊`, which is 0 on nonpositive inputs, agrees after the `max`.) -/
noncomputable def straightGenerate (startP endP : Vec3 ℝ) (spacing speedLimit : ℝ) :
    List (Waypoint ℝ) :=
  let dist := dist3 startP endP
  if dist < 1 / 1000 then []
  else
    let n : ℕ := max 2 ⌈dist / spacing⌉₊
    fillDistances ((List.range n).map fun (i : ℕ) =>
      ⟨vlerp startP endP ((i : ℝ) / ((n : ℝ) - 1)), speedLimit, 0⟩)

/-- Constructor parameters of `TurnWaypointSystem` (turnWaypointSystem.ts
lines 9-18); `turnRight` models `turn === 'right'`. -/
structure TurnParams where
  start : Vec3 ℝ
  approachEndX : ℝ
  radius : ℝ
  spacing : ℝ
  speedLimit : ℝ
  maxLatAccel : ℝ
  turnRight : Bool
  endAbs : ℝ

/-- Number of samples of the straight approach phase:
`nS = max(2, ceil(|x0 - start.x| / spacing))`. -/
noncomputable def turnApproachCount (ps : TurnParams) : ℕ :=
  max 2 ⌈|ps.approachEndX - ps.start.x| / ps.spacing⌉₊

/-- The straight approach samples (turnWaypointSystem.ts lines 31-39):
interpolated along x at z = 0, at the global speed limit. -/
noncomputable def turnApproach (ps : TurnParams) : List (Waypoint ℝ) :=
  let nS := turnApproachCount ps
  (List.range nS).map fun (i : ℕ) =>
    ⟨⟨mathUtilsLerp ps.start.x ps.approachEndX ((i : ℝ) / ((nS : ℝ) - 1)), 0, 0⟩,
      ps.speedLimit, 0⟩

/-- Number of samples of the quarter arc:
`nA = max(4, ceil(arcLen / max(0.6, spacing * 0.6)))` with
`arcLen = |phiEnd - phiStart| * R` and `phiEnd = 0`. -/
noncomputable def turnArcCount (ps : TurnParams) : ℕ :=
  let phiStart := if ps.turnRight then -(Real.pi / 2) else Real.pi / 2
  max 4 ⌈(|0 - phiStart| * ps.radius) / max (6/10) (ps.spacing * (6/10))⌉₊

/-- The curvature-limited cornering speed of every arc sample
(turnWaypointSystem.ts line 58): `min(speedLimit, sqrt(maxLatAccel / (1/R)))`. -/
noncomputable def turnArcSpeed (ps : TurnParams) : ℝ :=
  min ps.speedLimit (Real.sqrt (ps.maxLatAccel / (1 / ps.radius)))

/-- The quarter-circle arc samples (turnWaypointSystem.ts lines 41-60),
indexed `i = 1 .. nA` in the source, here `k + 1` for `k` in `range nA`. -/
noncomputable def turnArc (ps : TurnParams) : List (Waypoint ℝ) :=
  let R := ps.radius
  let centerZ := if ps.turnRight then R else -R
  let phiStart := if ps.turnRight then -(Real.pi / 2) else Real.pi / 2
  let nA := turnArcCount ps
  (List.range nA).map fun (k : ℕ) =>
    let t := ((k : ℝ) + 1) / (nA : ℝ)
    let phi := mathUtilsLerp phiStart 0 t
    ⟨⟨ps.approachEndX + R * Real.cos phi, 0, centerZ + R * Real.sin phi⟩,
      turnArcSpeed ps, 0⟩

/-- The exit straight samples (turnWaypointSystem.ts lines 62-72), continuing
from the last arc position toward `±endAbs` along z. -/
noncomputable def turnExit (ps : TurnParams) (endArc : Vec3 ℝ) : List (Waypoint ℝ) :=
  let zEnd := if ps.turnRight then ps.endAbs else -ps.endAbs
  let nE := max 2 ⌈|zEnd - endArc.z| / ps.spacing⌉₊
  (List.range nE).map fun (k : ℕ) =>
    ⟨⟨endArc.x, 0, mathUtilsLerp endArc.z zEnd (((k : ℝ) + 1) / (nE : ℝ))⟩,
      ps.speedLimit, 0⟩

/-- Mirror of `TurnWaypointSystem.generate` (turnWaypointSystem.ts lines
26-82): approach, arc and exit concatenated, then the distance pass. -/
noncomputable def turnGenerate (ps : TurnParams) : List (Waypoint ℝ) :=
  let head := turnApproach ps ++ turnArc ps
  let endArc := (head.getLast?.map Waypoint.position).getD default
  fillDistances (head ++ turnExit ps endArc)

/-! ### Pure-pursuit controller (purePursuit.ts, `purePursuitController`,
lines 86-245)

The controller reads the provider only through `getWaypoints()`, so the
provider is modelled as the waypoint list itself. -/

/-- Parameters `PPParams` of purePursuit.ts lines 10-20. -/
structure PPParams where
  L : ℝ
  L0 : ℝ
  kV : ℝ
  LdMin : ℝ
  LdMax : ℝ
  rMax : ℝ
  rRate : ℝ
  mu : ℝ
  g : ℝ

/-- Vehicle state `AutoState` of purePursuit.ts lines 22-28. -/
structure AutoState where
  pos : Vec3 ℝ
  yaw : ℝ
  vel : Vec3 ℝ
  speed : ℝ
  dt : ℝ

/-- The persisted controller state `{ yawRate, vTarget? }`; the optional
`vTarget` models the TypeScript optional field. -/
structure PrevState where
  yawRate : ℝ
  vTarget : Option ℝ

/-- The command `AutoCmd` of purePursuit.ts lines 30-33. -/
structure AutoCmd where
  throttle : ℝ
  yawRate : ℝ

/-- Mirror of Math.sign. -/
noncomputable def jsSign (x : ℝ) : ℝ := if x > 0 then 1 else if x < 0 then -1 else 0

/-- Mirror of Math.atan2 on real inputs.  JavaScript distinguishes +0 and -0
in the `x = 0, y = 0` corner; the reals have a single zero, for which
`Math.atan2(0, 0) = 0` (the value for positive zero) is taken. -/
noncomputable def jsAtan2 (y x : ℝ) : ℝ :=
  if x > 0 then Real.arctan (y / x)
  else if x < 0 then
    (if y ≥ 0 then Real.arctan (y / x) + Real.pi else Real.arctan (y / x) - Real.pi)
  else if y > 0 then Real.pi / 2
  else if y < 0 then -(Real.pi / 2)
  else 0

/-- Mirror of THREE.MathUtils.degToRad. -/
noncomputable def degToRad (d : ℝ) : ℝ := d * (Real.pi / 180)

/-- First loop of `wrapAngle` (purePursuit.ts line 36): subtract `2*pi` while
above `pi`, with explicit fuel. -/
noncomputable def wrapDownLoop : ℕ → ℝ → ℝ
  | 0, a => a
  | fuel + 1, a => if a > Real.pi then wrapDownLoop fuel (a - 2 * Real.pi) else a

/-- Second loop of `wrapAngle` (purePursuit.ts line 36): add `2*pi` while at
or below `-pi`, with explicit fuel. -/
noncomputable def wrapUpLoop : ℕ → ℝ → ℝ
  | 0, a => a
  | fuel + 1, a => if a ≤ -Real.pi then wrapUpLoop fuel (a + 2 * Real.pi) else a

/-- Mirror of `wrapAngle` (purePursuit.ts line 36). -/
noncomputable def wrapAngle (fuel : ℕ) (a : ℝ) : ℝ := wrapUpLoop fuel (wrapDownLoop fuel a)

/-- The cross-track error block (purePursuit.ts lines 117-133): signed
lateral offset of the vehicle from the nearest path segment, measured against
the left normal of the normalised segment direction; 0 when the path has
fewer than two samples or the segment is degenerate. -/
noncomputable def crosstrackEY (wps : List (Waypoint ℝ)) (pos : Vec3 ℝ) : ℝ :=
  if 2 ≤ wps.length then
    match findNearestIndexOpt wps pos with
    | none => 0
    | some idxN =>
        let j := (idxN + 1) % wps.length
        let p0 := (wps.getD idxN default).position
        let p1 := (wps.getD j default).position
        let sx := p1.x - p0.x
        let sy := p1.z - p0.z
        if sx * sx + sy * sy > 1 / 1000000 then
          let len := Real.sqrt (sx * sx + sy * sy)
          (pos.x - p0.x) * (-(sy / len)) + (pos.z - p0.z) * (sx / len)
        else 0
  else 0

/-- The steering-geometry half of the controller (purePursuit.ts lines
92-115), returning the bicycle-model curvature `kappa`: lookahead distance
clamping, lookahead query, bearing `alpha` with its speed-dependent deadband,
`kappa = 2*sin(alpha) / max(1e-3, Ld)`, and the corner-adaptive second pass
(which recomputes `alpha` without the deadband, as the source does).  `none`
models a lookahead walk that did not finish. -/
noncomputable def ppSteerKappa (fuel : ℕ) (wps : List (Waypoint ℝ)) (st : AutoState)
    (p : PPParams) : Option ℝ :=
  let v := st.speed
  let Ld0 := clampF (p.L0 + p.kV * |v|) p.LdMin p.LdMax
  (getLookaheadPoint fuel wps st.pos Ld0).bind fun look0 =>
    let alphaRaw := wrapAngle fuel (jsAtan2 (look0.z - st.pos.z) (look0.x - st.pos.x) - st.yaw)
    let alphaDb := degToRad (mathUtilsLerp (8/10) (5/10) (clampF (|v| / 12) 0 1))
    let alpha0 := if |alphaRaw| < alphaDb then 0 else alphaRaw
    let kappa0 := 2 * Real.sin alpha0 / max (1 / 1000) Ld0
    let LdEff := Ld0 / (1 + (5/10) * |kappa0|)
    if |LdEff - Ld0| > 1 / 1000 then
      let Ld1 := clampF LdEff p.LdMin p.LdMax
      (getLookaheadPoint fuel wps st.pos Ld1).map fun look1 =>
        let alpha1 :=
          wrapAngle fuel (jsAtan2 (look1.z - st.pos.z) (look1.x - st.pos.x) - st.yaw)
        2 * Real.sin alpha1 / max (1 / 1000) Ld1
    else some kappa0

/-- The yaw-rate command chain (purePursuit.ts lines 134-161): cross-track
corrective term, low-pass filter toward the previous command, friction-ellipse
scale-down, curvature-implied speed-cap reduction, rate limit and magnitude
clamp. -/
noncomputable def ppYawRate (prevYawRate v dtv kappa eY : ℝ) (p : PPParams) : ℝ :=
  let rCrosstrack := (22/100) * (eY / max 1 |v|)
  let rCmdRaw := -v * kappa + rCrosstrack
  let beta := clampF ((35/100) + (35/100) * (|v| / 12)) (35/100) (7/10)
  let rCmd1 := prevYawRate + beta * (rCmdRaw - prevYawRate)
  let ayMax := p.mu * p.g
  let ay := |v| * |v| * |kappa|
  let rCmd2 :=
    if ayMax > 1 / 1000000 then
      (let ratio := min (999/1000) (ay / ayMax)
       rCmd1 * Real.sqrt (max 0 (1 - ratio * ratio)))
    else rCmd1
  let rCmd3 :=
    if |kappa| > 1 / 100000 then
      (let vMaxK := Real.sqrt (ayMax / max (1 / 1000000) |kappa|)
       if v > vMaxK then jsSign rCmd2 * vMaxK * |kappa| else rCmd2)
    else rCmd2
  let rStep := p.rRate * dtv
  clampF (clampF rCmd3 (prevYawRate - rStep) (prevYawRate + rStep)) (-p.rMax) p.rMax

/-- State threaded through the speed-preview loop of purePursuit.ts lines
187-206: remaining preview time, current index, minimum target speed seen so
far (`none` models the initial `Infinity`), and the `times` / `speeds`
arrays. -/
structure PreviewState where
  tleft : ℝ
  cur : ℕ
  minSpd : Option ℝ
  times : List ℝ
  speeds : List ℝ

/-- The time-domain preview loop (purePursuit.ts lines 193-206).  The source
loop runs at most `all.length` iterations: each iteration either breaks (on a
degenerate segment or on wrapping back to the start index) or advances `cur`
cyclically, and the wrap-protection `if (cur === idx) break` fires after at
most `all.length` steps, so calling with fuel `all.length` reproduces the
loop exactly. -/
noncomputable def previewLoop (all : List (Waypoint ℝ)) (idx : ℕ) (vAbs previewTime : ℝ) :
    ℕ → PreviewState → PreviewState
  | 0, s => s
  | fuel + 1, s =>
      if s.tleft > 0 ∧ s.cur < all.length then
        let wp := all.getD s.cur default
        let minSpd : Option ℝ :=
          some (match s.minSpd with
            | none => wp.targetSpeed
            | some m => min m wp.targetSpeed)
        let seg := wp.distanceToNext
        if seg ≤ 1 / 10000 then { s with minSpd := minSpd }
        else
          let vEst := max (3/10) (min vAbs wp.targetSpeed)
          let tleft := s.tleft - seg / vEst
          let s2 : PreviewState :=
            { tleft := tleft
              cur := (s.cur + 1) % all.length
              minSpd := minSpd
              times := s.times ++ [max 0 (previewTime - tleft)]
              speeds := s.speeds ++ [wp.targetSpeed] }
          if s2.cur = idx then s2
          else previewLoop all idx vAbs previewTime fuel s2
      else s

/-- Result of the speed-preview phase: the windowed minimum target speed
`vWp` and the estimated time to reach it `tToMin`. -/
structure PreviewOut where
  vWp : ℝ
  tToMin : ℝ

/-- The speed-preview phase (purePursuit.ts lines 178-213): defaults
`vWp = 8`, `tToMin = 1.2`; on a nonempty path, run the preview loop from the
nearest index and derive `vWp` (`Infinity` falls back to 8) and `tToMin` from
the recorded times and speeds. -/
noncomputable def ppPreview (wps : List (Waypoint ℝ)) (pos : Vec3 ℝ) (v : ℝ) : PreviewOut :=
  if 0 < wps.length then
    let previewTime := clampF ((12/10) + |v| * (6/100)) (12/10) 2
    match findNearestIndexOpt wps pos with
    | none => ⟨8, 12/10⟩
    | some idx =>
        let fin := previewLoop wps idx |v| previewTime wps.length
          ⟨previewTime, idx, none, [], []⟩
        let vWp := fin.minSpd.getD 8
        let tToMin :=
          match fin.speeds.findIdx? (fun s => decide (s ≤ vWp + 1 / 1000000)) with
          | some k =>
              if k < fin.times.length then max (3/10) (fin.times.getD k 0)
              else max (8/10) previewTime
          | none => max (8/10) previewTime
        ⟨vWp, tToMin⟩
  else ⟨8, 12/10⟩

/-- The desired speed (purePursuit.ts lines 214-217): the minimum of the
preview speed and the curvature-implied maximum; the curvature bound `vK` is
`Infinity` when `|kappa| <= 1e-6`, and `min(vWp, Infinity) = vWp`, which the
else branch returns directly. -/
noncomputable def ppVDesired (vWp kappa ayMax : ℝ) : ℝ :=
  if |kappa| > 1 / 1000000 then min vWp (Real.sqrt (ayMax / |kappa|)) else vWp

/-- The ramped speed target (purePursuit.ts lines 218-227): the previous
target moves toward the desired speed with asymmetric rate limits 4.0 m/s²
up and 3.0 m/s² down. -/
noncomputable def ppVTarget (vPrev vDesired dtv : ℝ) : ℝ :=
  let dvDes := vDesired - vPrev
  if dvDes > 0 then vPrev + min (4 * dtv) dvDes else vPrev + max (-(3 * dtv)) dvDes

/-- The throttle control block (purePursuit.ts lines 229-244): proportional
control clamped to `[-1, 1]`, the ±0.3 m/s coasting band, the gentle-brake
floor for `dv < -0.5`, and the overspeed feed-forward brake that takes the
more negative of the two estimates. -/
noncomputable def ppThrottle (v vTarget vDesired tToMin ayMax : ℝ) : ℝ :=
  let dv := vTarget - v
  let t1 := clampF ((22/100) * dv) (-1) 1
  let t2 := if |dv| < 3/10 then max 0 t1 else t1
  let t3 := if dv < -(5/10) then max t2 (-(4/10)) else t2
  if v > vDesired + 2/10 then
    let tPlan := max (6/10) (min (22/10) tToMin)
    let aReq := (v - vDesired) / tPlan
    min t3 (-(clampF (aReq / max (1/10) ayMax) 0 1))
  else t3

/-- Mirror of `purePursuitController` (purePursuit.ts lines 86-245), composed
from the blocks above in source order; `none` models a lookahead walk that
did not finish. -/
noncomputable def purePursuitController (fuel : ℕ) (wps : List (Waypoint ℝ)) (st : AutoState)
    (prev : PrevState) (p : PPParams) : Option AutoCmd :=
  (ppSteerKappa fuel wps st p).map fun kappa =>
    let eY := crosstrackEY wps st.pos
    let rCmd := ppYawRate prev.yawRate st.speed st.dt kappa eY p
    let ayMax := p.mu * p.g
    let pv := ppPreview wps st.pos st.speed
    let vDesired := ppVDesired pv.vWp kappa ayMax
    let vTarget := ppVTarget (prev.vTarget.getD st.speed) vDesired st.dt
    ⟨ppThrottle st.speed vTarget vDesired pv.tToMin ayMax, rCmd⟩

/-- A concrete parameter set used by the concrete evaluations below:
`L = 2.5, L0 = 2, kV = 0.3, LdMin = 2, LdMax = 8, rMax = 1, rRate = 1,
mu = 1, g = 10`. -/
noncomputable def ppParams0 : PPParams :=
  ⟨5/2, 2, 3/10, 2, 8, 1, 1, 1, 10⟩

/-- An open 3-sample straight path along x with unit segments: positions 0,
1, 2, distances 1, 1 and 0 (the final sample of an open path).  The lookahead
walk is field-agnostic, so concrete runs use rational coordinates. -/
def path3 : List (Waypoint ℚ) :=
  [⟨⟨0, 0, 0⟩, 12, 1⟩, ⟨⟨1, 0, 0⟩, 12, 1⟩, ⟨⟨2, 0, 0⟩, 12, 0⟩]

/-- A non-empty path all of whose segments are degenerate: a single sample
with `distanceToNext = 0`. -/
def degenPath : List (Waypoint ℚ) := [⟨⟨0, 0, 0⟩, 12, 0⟩]

/-- The concrete turn parameters of the repository demo and of the spec
testable property: start (-40,0,0), approach end x = -18, radius 10,
spacing 2, speed limit 12, max lateral acceleration 8, right turn,
exit bound 40. -/
noncomputable def turnParams0 : TurnParams :=
  ⟨⟨-40, 0, 0⟩, -18, 10, 2, 12, 8, true, 40⟩

/-! ## Theorems -/

/-- Comparing true Euclidean distances with strict `<` agrees with comparing
the squared distances used by `dist2`; this is what lets the nearest-sample
scan compare `dist2` where the source compares `distanceTo`. -/
theorem sqrt_lt_sqrt_iff_dist2 (a b c d : Vec3 ℝ) :
    Real.sqrt (dist2 a b) < Real.sqrt (dist2 c d) ↔ dist2 a b < dist2 c d := by
  constructor
  · intro h
    by_contra hle
    exact absurd (Real.sqrt_le_sqrt (not_lt.mp hle)) (not_le.mpr h)
  · intro h
    have hab : 0 ≤ dist2 a b := by
      unfold dist2
      have h1 := mul_self_nonneg (a.x - b.x)
      have h2 := mul_self_nonneg (a.y - b.y)
      have h3 := mul_self_nonneg (a.z - b.z)
      linarith
    exact Real.sqrt_lt_sqrt hab h

/-- A clamp with ordered bounds lands inside the bounds. -/
theorem clampF_mem {K : Type} [LinearOrderedField K] (x a b : K) (hab : a ≤ b) :
    a ≤ clampF x a b ∧ clampF x a b ≤ b :=
  ⟨le_max_left a _, max_le hab (min_le_left b x)⟩

/-- The distance pass preserves the number of samples. -/
theorem fillDistances_length (l : List (Waypoint ℝ)) :
    (fillDistances l).length = l.length := by
  induction l with
  | nil => rfl
  | cons w tail ih =>
      cases tail with
      | nil => rfl
      | cons w2 rest =>
          simp only [fillDistances, List.length_cons]
          simpa using ih

/-- The distance pass preserves every sample's target speed. -/
theorem fillDistances_targetSpeed (l : List (Waypoint ℝ)) (i : ℕ) :
    ((fillDistances l).get? i).map Waypoint.targetSpeed =
      (l.get? i).map Waypoint.targetSpeed := by
  induction l generalizing i with
  | nil => rfl
  | cons w tail ih =>
      cases tail with
      | nil =>
          cases i with
          | zero => rfl
          | succ j => cases j <;> rfl
      | cons w2 rest =>
          cases i with
          | zero => rfl
          | succ j =>
              simp only [fillDistances, List.get?]
              exact ih j

/-- One step of the lookahead walk: budget exhausted, return the current
sample position. -/
theorem lookaheadWalk_stop {K : Type} [LinearOrderedField K] (wps : List (Waypoint K))
    (fuel : ℕ) (remaining : K) (cur : ℕ) (h : ¬ remaining > 0) :
    lookaheadWalk wps (fuel + 1) remaining cur = some (wps.getD cur default).position := by
  simp only [lookaheadWalk]
  rw [if_neg h]

/-- One step of the lookahead walk: a degenerate segment is skipped without
consuming budget. -/
theorem lookaheadWalk_skip {K : Type} [LinearOrderedField K] (wps : List (Waypoint K))
    (fuel : ℕ) (remaining : K) (cur : ℕ) (h : remaining > 0)
    (hseg : (wps.getD cur default).distanceToNext ≤ 1 / 10000) :
    lookaheadWalk wps (fuel + 1) remaining cur =
      lookaheadWalk wps fuel remaining ((cur + 1) % wps.length) := by
  simp only [lookaheadWalk]
  rw [if_pos h, if_pos hseg]

/-- One step of the lookahead walk: the budget fits inside the current
segment, interpolate. -/
theorem lookaheadWalk_take {K : Type} [LinearOrderedField K] (wps : List (Waypoint K))
    (fuel : ℕ) (remaining : K) (cur : ℕ) (h : remaining > 0)
    (hseg : ¬ (wps.getD cur default).distanceToNext ≤ 1 / 10000)
    (hfit : remaining ≤ (wps.getD cur default).distanceToNext) :
    lookaheadWalk wps (fuel + 1) remaining cur =
      some (vlerp (wps.getD cur default).position
        (wps.getD ((cur + 1) % wps.length) default).position
        (remaining / (wps.getD cur default).distanceToNext)) := by
  simp only [lookaheadWalk]
  rw [if_pos h, if_neg hseg, if_pos hfit]

/-- One step of the lookahead walk: consume the segment and move on. -/
theorem lookaheadWalk_consume {K : Type} [LinearOrderedField K] (wps : List (Waypoint K))
    (fuel : ℕ) (remaining : K) (cur : ℕ) (h : remaining > 0)
    (hseg : ¬ (wps.getD cur default).distanceToNext ≤ 1 / 10000)
    (hfit : ¬ remaining ≤ (wps.getD cur default).distanceToNext) :
    lookaheadWalk wps (fuel + 1) remaining cur =
      lookaheadWalk wps fuel (remaining - (wps.getD cur default).distanceToNext)
        ((cur + 1) % wps.length) := by
  simp only [lookaheadWalk]
  rw [if_pos h, if_neg hseg, if_neg hfit]

/-- C2: on every dynamics tick and for every throttle command, including the
reverse-boost multiplication by 1.6 before clamping and the steering-load
reduction applied afterwards, the scalar drive force applied along the
forward axis has magnitude at most `mass * 9.81 * mu`. -/
theorem drive_force_friction_circle (engineForce m mu throttle steer speed : ℚ)
    (frontBlocked frontNear bKey : Bool) (hm : 0 ≤ m) (hmu : 0 ≤ mu) :
    |appliedDriveForce engineForce m mu throttle steer speed frontBlocked frontNear bKey| ≤
      m * (981/100) * mu := by
  have hT : (0 : ℚ) ≤ m * (981/100) * mu :=
    mul_nonneg (mul_nonneg hm (by norm_num)) hmu
  have hF : |clampedDriveForce engineForce m mu throttle frontBlocked frontNear bKey| ≤
      m * (981/100) * mu := by
    simp only [clampedDriveForce]
    rw [abs_le]
    refine ⟨le_max_left _ _, max_le (by linarith) (min_le_left _ _)⟩
  have hs := clampF_mem (1 - (1/2) * |steer| * (1 - clampF (speed / 6) 0 1)) (1/2) 1
    (by norm_num)
  simp only [appliedDriveForce]
  by_cases hd : driveThrottleOf throttle frontBlocked frontNear bKey > 0
  · rw [if_pos hd]
    have hsc : (1/2 : ℚ) ≤ driveSteerScaleOf steer speed ∧ driveSteerScaleOf steer speed ≤ 1 := by
      simpa only [driveSteerScaleOf] using hs
    calc |clampedDriveForce engineForce m mu throttle frontBlocked frontNear bKey *
            driveSteerScaleOf steer speed|
        = |clampedDriveForce engineForce m mu throttle frontBlocked frontNear bKey| *
            |driveSteerScaleOf steer speed| := abs_mul _ _
      _ ≤ |clampedDriveForce engineForce m mu throttle frontBlocked frontNear bKey| * 1 := by
          refine mul_le_mul_of_nonneg_left ?_ (abs_nonneg _)
          rw [abs_of_nonneg (by linarith [hsc.1])]
          exact hsc.2
      _ = |clampedDriveForce engineForce m mu throttle frontBlocked frontNear bKey| :=
          mul_one _
      _ ≤ m * (981/100) * mu := hF
  · rw [if_neg hd]
    exact hF

/-- Witness for C2 at the repository defaults: mass 880, mu 0.7, engine force
2300, full forward throttle, no steering, at rest. -/
theorem drive_force_friction_circle_witness :
    (0 : ℚ) ≤ 880 ∧ (0 : ℚ) ≤ 7/10 ∧
    |appliedDriveForce 2300 880 (7/10) 1 0 0 false false false| ≤ 880 * (981/100) * (7/10) :=
  ⟨by norm_num, by norm_num,
    drive_force_friction_circle 2300 880 (7/10) 1 0 0 false false false
      (by norm_num) (by norm_num)⟩

/-- C1: every processed collision applies to the other body exactly the
negation of the impulse applied to the handling body, both impulses have zero
vertical component, and the restitution coefficient entering the impulse
formula is the fixed 0.4 for every call, independent of masses, normal and
relative velocity (hence of which vehicle's handler runs). -/
theorem collision_impulse_symmetry (myMass otherMass : ℝ) (normal relVel : Vec3 ℝ)
    (out : CollisionOutcome)
    (h : applyCollisionPhysics myMass otherMass normal relVel = some out) :
    out.otherImpulse.x = -out.myImpulse.x ∧
    out.otherImpulse.y = -out.myImpulse.y ∧
    out.otherImpulse.z = -out.myImpulse.z ∧
    out.myImpulse.y = 0 ∧ out.otherImpulse.y = 0 ∧
    out.restitutionUsed = 0.4 := by
  simp only [applyCollisionPhysics] at h
  by_cases hc : relVel.x * normal.x + relVel.y * normal.y + relVel.z * normal.z > 0
  · rw [if_pos hc] at h
    exact absurd h (by simp)
  · rw [if_neg hc] at h
    have h2 := Option.some.inj h
    rw [← h2]
    norm_num

/-- Witness for C1: equal unit masses, head-on along x; the call processes
the collision and the theorem applies. -/
theorem collision_impulse_symmetry_witness :
    applyCollisionPhysics 1 1 ⟨1, 0, 0⟩ ⟨-1, 0, 0⟩ =
      some ⟨⟨7/10, 0, 0⟩, ⟨-(7/10), 0, 0⟩, -(7/200), 4/10⟩ ∧
    CollisionOutcome.restitutionUsed ⟨⟨7/10, 0, 0⟩, ⟨-(7/10), 0, 0⟩, -(7/200), 4/10⟩ = 0.4 := by
  have hsq : Real.sqrt (49/100) = 7/10 := by
    rw [show (49/100 : ℝ) = (7/10)^2 by norm_num]
    exact Real.sqrt_sq (by norm_num)
  have heval : applyCollisionPhysics 1 1 ⟨1, 0, 0⟩ ⟨-1, 0, 0⟩ =
      some ⟨⟨7/10, 0, 0⟩, ⟨-(7/10), 0, 0⟩, -(7/200), 4/10⟩ := by
    simp only [applyCollisionPhysics]
    norm_num [hsq]
  exact ⟨heval, (collision_impulse_symmetry 1 1 _ _ _ heval).2.2.2.2.2⟩

/-- Empty tail: the scan returns the best index found. -/
theorem nearestScanAux_nil {K : Type} [LinearOrderedField K] (frm : Vec3 K)
    (i best : ℕ) (bestD : K) : nearestScanAux frm [] i best bestD = best := rfl

/-- Scan step with strict improvement: the current index becomes the best. -/
theorem nearestScanAux_cons_improve {K : Type} [LinearOrderedField K] (frm : Vec3 K)
    (w : Waypoint K) (rest : List (Waypoint K)) (i best : ℕ) (bestD : K)
    (h : dist2 frm w.position < bestD) :
    nearestScanAux frm (w :: rest) i best bestD =
      nearestScanAux frm rest (i + 1) i (dist2 frm w.position) := by
  simp only [nearestScanAux]
  rw [if_pos h]

/-- Scan step without improvement: best index and distance are kept. -/
theorem nearestScanAux_cons_keep {K : Type} [LinearOrderedField K] (frm : Vec3 K)
    (w : Waypoint K) (rest : List (Waypoint K)) (i best : ℕ) (bestD : K)
    (h : ¬ dist2 frm w.position < bestD) :
    nearestScanAux frm (w :: rest) i best bestD =
      nearestScanAux frm rest (i + 1) best bestD := by
  simp only [nearestScanAux]
  rw [if_neg h]

/-- On the concrete 3-sample path the nearest sample to the origin is the
first one. -/
theorem path3_nearest :
    nearestScan (⟨0, 0, 0⟩ : Vec3 ℚ) ⟨⟨0, 0, 0⟩, 12, 1⟩
      [⟨⟨1, 0, 0⟩, 12, 1⟩, ⟨⟨2, 0, 0⟩, 12, 0⟩] = 0 := by
  have e0 : dist2 (⟨0, 0, 0⟩ : Vec3 ℚ) ⟨0, 0, 0⟩ = 0 := by norm_num [dist2]
  have e1 : dist2 (⟨0, 0, 0⟩ : Vec3 ℚ) ⟨1, 0, 0⟩ = 1 := by norm_num [dist2]
  have e2 : dist2 (⟨0, 0, 0⟩ : Vec3 ℚ) ⟨2, 0, 0⟩ = 4 := by norm_num [dist2]
  unfold nearestScan
  rw [e0]
  rw [nearestScanAux_cons_keep _ _ _ _ _ _ (by rw [e1]; norm_num)]
  rw [nearestScanAux_cons_keep _ _ _ _ _ _ (by rw [e2]; norm_num)]
  rw [nearestScanAux_nil]

/-- Shared evaluation: on the open 3-sample path with a budget exceeding the
total remaining length 2 (but within one wrapped pass), the walk consumes the
two unit segments, skips the zero final segment, wraps to the first sample
and interpolates on the first segment. -/
theorem path3_lookahead_wrap_eval (Ld : ℚ) (h1 : 2 < Ld) (h2 : Ld ≤ 3) :
    getLookaheadPoint 10 path3 ⟨0, 0, 0⟩ Ld = some ⟨Ld - 2, 0, 0⟩ := by
  have hd0 : (path3.getD 0 default).distanceToNext = (1 : ℚ) := rfl
  have hd1 : (path3.getD 1 default).distanceToNext = (1 : ℚ) := rfl
  have hd2 : (path3.getD 2 default).distanceToNext = (0 : ℚ) := rfl
  have hcons : getLookaheadPoint 10 path3 ⟨0, 0, 0⟩ Ld = lookaheadWalk path3 10 Ld 0 := by
    show lookaheadWalk path3 10 Ld
      (nearestScan (⟨0, 0, 0⟩ : Vec3 ℚ) ⟨⟨0, 0, 0⟩, 12, 1⟩
        [⟨⟨1, 0, 0⟩, 12, 1⟩, ⟨⟨2, 0, 0⟩, 12, 0⟩]) = _
    rw [path3_nearest]
  rw [hcons]
  rw [show (10 : ℕ) = 9 + 1 from rfl,
    lookaheadWalk_consume path3 9 Ld 0 (by linarith)
      (by rw [hd0]; norm_num) (by rw [hd0]; exact not_le.mpr (by linarith))]
  show lookaheadWalk path3 9 (Ld - 1) 1 = some ⟨Ld - 2, 0, 0⟩
  rw [show (9 : ℕ) = 8 + 1 from rfl,
    lookaheadWalk_consume path3 8 (Ld - 1) 1 (by linarith)
      (by rw [hd1]; norm_num) (by rw [hd1]; exact not_le.mpr (by linarith))]
  show lookaheadWalk path3 8 (Ld - 1 - 1) 2 = some ⟨Ld - 2, 0, 0⟩
  rw [show (8 : ℕ) = 7 + 1 from rfl,
    lookaheadWalk_skip path3 7 (Ld - 1 - 1) 2 (by linarith) (by rw [hd2]; norm_num)]
  show lookaheadWalk path3 7 (Ld - 1 - 1) 0 = some ⟨Ld - 2, 0, 0⟩
  rw [show (7 : ℕ) = 6 + 1 from rfl,
    lookaheadWalk_take path3 6 (Ld - 1 - 1) 0 (by linarith)
      (by rw [hd0]; norm_num) (by rw [hd0]; linarith)]
  rw [hd0]
  show some (vlerp (⟨0, 0, 0⟩ : Vec3 ℚ) ⟨1, 0, 0⟩ ((Ld - 1 - 1) / 1)) = _
  simp only [vlerp, Option.some.injEq, Vec3.mk.injEq]
  norm_num
  ring

/-- C10, divergence at the failing input: on the non-empty path whose only
segment is degenerate, `getLookaheadPoint` with lookahead 1 never terminates:
for every fuel bound the walk is still running.  The degenerate segment is
skipped without consuming budget (so no division by zero occurs, that half of
the claim holds by the structure of `lookaheadWalk`), but the skip re-enters
the same loop state forever. -/
theorem lookahead_all_degenerate_never_terminates (fuel : ℕ) :
    getLookaheadPoint fuel degenPath ⟨0, 0, 0⟩ 1 = none := by
  have hd : (degenPath.getD 0 default).distanceToNext = (0 : ℚ) := rfl
  have h : ∀ f : ℕ, lookaheadWalk degenPath f 1 0 = none := by
    intro f
    induction f with
    | zero => rfl
    | succ g ih =>
        rw [lookaheadWalk_skip degenPath g 1 0 (by norm_num) (by rw [hd]; norm_num)]
        show lookaheadWalk degenPath g 1 0 = none
        exact ih
  exact h fuel

/-- C4 counterexample: on the open 3-sample path (final `distanceToNext` is
0) with lookahead 5/2 exceeding the total remaining length 2 from the nearest
sample, the walk wraps past the end and returns the midpoint of the first
segment, not the final sample position (2,0,0). -/
theorem lookahead_open_path_no_final_cex :
    (path3.get? 2).map Waypoint.distanceToNext = some 0 ∧
    (1 + 1 + 0 : ℚ) < 5/2 ∧
    getLookaheadPoint 10 path3 ⟨0, 0, 0⟩ (5/2) = some ⟨1/2, 0, 0⟩ ∧
    (⟨1/2, 0, 0⟩ : Vec3 ℚ) ≠ ⟨2, 0, 0⟩ := by
  refine ⟨rfl, by norm_num, ?_, by norm_num [Vec3.mk.injEq]⟩
  rw [path3_lookahead_wrap_eval (5/2) (by norm_num) (by norm_num)]
  norm_num

/-- C4 amended: on the open 3-sample path, whenever the lookahead exceeds the
total remaining length 2 (and fits within one wrapped pass), the walk skips
the zero-length final segment without consuming budget, wraps to the first
sample and interpolates on the first segment: the result is the wrapped point
at arc length `Ld - 2` from the start, never the final sample. -/
theorem lookahead_open_path_wraps (Ld : ℚ) (h1 : 2 < Ld) (h2 : Ld ≤ 3) :
    getLookaheadPoint 10 path3 ⟨0, 0, 0⟩ Ld = some ⟨Ld - 2, 0, 0⟩ :=
  path3_lookahead_wrap_eval Ld h1 h2

/-- Witness for C4 amended, at lookahead 5/2. -/
theorem lookahead_open_path_wraps_witness :
    (2 : ℚ) < 5/2 ∧ (5/2 : ℚ) ≤ 3 ∧
    getLookaheadPoint 10 path3 ⟨0, 0, 0⟩ (5/2) = some ⟨5/2 - 2, 0, 0⟩ :=
  ⟨by norm_num, by norm_num,
    lookahead_open_path_wraps (5/2) (by norm_num) (by norm_num)⟩

/-- C9 counterexample: a straight system whose endpoints coincide constructs
without any error signal and yields an empty path, i.e. fewer than 2 samples
(straightWaypointSystem.ts line 19 returns silently; the source has no throw
path at all). -/
theorem straight_construction_no_failure_cex :
    straightGenerate ⟨0, 0, 0⟩ ⟨0, 0, 0⟩ 2 12 = [] ∧
    (straightGenerate ⟨0, 0, 0⟩ ⟨0, 0, 0⟩ 2 12).length < 2 := by
  have hd : dist3 (⟨0, 0, 0⟩ : Vec3 ℝ) ⟨0, 0, 0⟩ = 0 := by
    have h0 : dist2 (⟨0, 0, 0⟩ : Vec3 ℝ) ⟨0, 0, 0⟩ = 0 := by norm_num [dist2]
    simp only [dist3]
    rw [h0, Real.sqrt_zero]
  have he : straightGenerate ⟨0, 0, 0⟩ ⟨0, 0, 0⟩ 2 12 = [] := by
    simp only [straightGenerate]
    rw [hd]
    norm_num
  refine ⟨he, ?_⟩
  rw [he]
  norm_num

/-- C9 amended: construction cannot yield a path with exactly one sample;
endpoints at least 1e-3 apart always give at least 2 samples, while closer
endpoints give the empty path of the counterexample, with no error signalled
in either case. -/
theorem straight_generate_min_samples (startP endP : Vec3 ℝ) (spacing speedLimit : ℝ)
    (h : 1 / 1000 ≤ dist3 startP endP) :
    2 ≤ (straightGenerate startP endP spacing speedLimit).length := by
  simp only [straightGenerate]
  rw [if_neg (not_lt.mpr h)]
  rw [fillDistances_length, List.length_map, List.length_range]
  exact le_max_left 2 _

/-- Witness for C9 amended: endpoints 3 apart with spacing 2 give a path of
at least 2 samples. -/
theorem straight_generate_min_samples_witness :
    1 / 1000 ≤ dist3 (⟨0, 0, 0⟩ : Vec3 ℝ) ⟨3, 0, 0⟩ ∧
    2 ≤ (straightGenerate ⟨0, 0, 0⟩ ⟨3, 0, 0⟩ 2 12).length := by
  have hd : dist3 (⟨0, 0, 0⟩ : Vec3 ℝ) ⟨3, 0, 0⟩ = 3 := by
    have h0 : dist2 (⟨0, 0, 0⟩ : Vec3 ℝ) ⟨3, 0, 0⟩ = 9 := by norm_num [dist2]
    simp only [dist3]
    rw [h0, show (9 : ℝ) = 3^2 by norm_num]
    exact Real.sqrt_sq (by norm_num)
  have hge : 1 / 1000 ≤ dist3 (⟨0, 0, 0⟩ : Vec3 ℝ) ⟨3, 0, 0⟩ := by
    rw [hd]; norm_num
  exact ⟨hge, straight_generate_min_samples _ _ _ _ hge⟩

/-- C3: at the end of every dynamics tick the planar speed does not exceed
`maxSpeed * 1.05`; when the start-of-tick planar speed exceeds the cap, the
planar velocity is rescaled to magnitude exactly `maxSpeed * 1.05` and the
vertical component is left unchanged.  `v2` is the planar velocity the tick
computed from `lv` at its start and `speed` its norm; the mild positivity
bound on `maxSpeed` (the repository default is 12) keeps the `speed > 1e-6`
guard of the source from masking the cap. -/
theorem speed_hard_cap_invariant (maxSpeed speed : ℝ) (v2 lv : Vec3 ℝ)
    (hms : 1 / 1000000 ≤ maxSpeed)
    (hv2 : v2 = ⟨lv.x, 0, lv.z⟩) (hsp : speed = norm3 v2) :
    norm3 ⟨(speedHardCap maxSpeed speed v2 lv).x, 0, (speedHardCap maxSpeed speed v2 lv).z⟩ ≤
      maxSpeed * 1.05 ∧
    (speedHardCap maxSpeed speed v2 lv).y = lv.y ∧
    (speed > maxSpeed * 1.05 →
      norm3 ⟨(speedHardCap maxSpeed speed v2 lv).x, 0,
        (speedHardCap maxSpeed speed v2 lv).z⟩ = maxSpeed * 1.05) := by
  subst hv2
  subst hsp
  have hS : (0 : ℝ) ≤ lv.x * lv.x + 0 * 0 + lv.z * lv.z := by
    nlinarith [mul_self_nonneg lv.x, mul_self_nonneg lv.z]
  have hHM : (0 : ℝ) < maxSpeed * 1.05 := by nlinarith
  have hnn : norm3 (⟨lv.x, 0, lv.z⟩ : Vec3 ℝ) * norm3 (⟨lv.x, 0, lv.z⟩ : Vec3 ℝ) =
      lv.x * lv.x + 0 * 0 + lv.z * lv.z := Real.mul_self_sqrt hS
  simp only [speedHardCap]
  by_cases hc : norm3 (⟨lv.x, 0, lv.z⟩ : Vec3 ℝ) > maxSpeed * 1.05 ∧
      norm3 (⟨lv.x, 0, lv.z⟩ : Vec3 ℝ) > 1 / 1000000
  · rw [if_pos hc]
    have hlen : 0 < norm3 (⟨lv.x, 0, lv.z⟩ : Vec3 ℝ) := lt_trans hHM hc.1
    have hlen0 : norm3 (⟨lv.x, 0, lv.z⟩ : Vec3 ℝ) ≠ 0 := ne_of_gt hlen
    simp only [normalize3]
    rw [if_neg hlen0]
    have harg : lv.x / norm3 (⟨lv.x, 0, lv.z⟩ : Vec3 ℝ) * (maxSpeed * 1.05) *
          (lv.x / norm3 (⟨lv.x, 0, lv.z⟩ : Vec3 ℝ) * (maxSpeed * 1.05)) + 0 * 0 +
          lv.z / norm3 (⟨lv.x, 0, lv.z⟩ : Vec3 ℝ) * (maxSpeed * 1.05) *
          (lv.z / norm3 (⟨lv.x, 0, lv.z⟩ : Vec3 ℝ) * (maxSpeed * 1.05)) =
          (maxSpeed * 1.05) * (maxSpeed * 1.05) := by
      field_simp
      linear_combination (-(441/400 : ℝ) * maxSpeed ^ 2) * hnn
    have key : norm3 ⟨lv.x / norm3 (⟨lv.x, 0, lv.z⟩ : Vec3 ℝ) * (maxSpeed * 1.05), 0,
        lv.z / norm3 (⟨lv.x, 0, lv.z⟩ : Vec3 ℝ) * (maxSpeed * 1.05)⟩ = maxSpeed * 1.05 := by
      show Real.sqrt _ = maxSpeed * 1.05
      rw [harg]
      exact Real.sqrt_mul_self (le_of_lt hHM)
    refine ⟨le_of_eq key, ?_, fun _ => key⟩
    trivial
  · rw [if_neg hc]
    have hb : ¬ norm3 (⟨lv.x, 0, lv.z⟩ : Vec3 ℝ) > maxSpeed * 1.05 := by
      intro hA
      have hB : norm3 (⟨lv.x, 0, lv.z⟩ : Vec3 ℝ) > 1 / 1000000 := by nlinarith
      exact hc ⟨hA, hB⟩
    exact ⟨not_lt.mp hb, rfl, fun hgt => absurd hgt hb⟩

/-- Witness for C3 at the repository default `maxSpeed = 12`, with a linear
velocity of planar norm 20 exceeding the cap 12.6. -/
theorem speed_hard_cap_invariant_witness :
    (1 / 1000000 : ℝ) ≤ 12 ∧
    (⟨20, 0, 0⟩ : Vec3 ℝ) = ⟨(⟨20, 3, 0⟩ : Vec3 ℝ).x, 0, (⟨20, 3, 0⟩ : Vec3 ℝ).z⟩ ∧
    (20 : ℝ) = norm3 ⟨20, 0, 0⟩ ∧
    (norm3 ⟨(speedHardCap 12 20 ⟨20, 0, 0⟩ ⟨20, 3, 0⟩).x, 0,
        (speedHardCap 12 20 ⟨20, 0, 0⟩ ⟨20, 3, 0⟩).z⟩ ≤ 12 * 1.05 ∧
      (speedHardCap 12 20 ⟨20, 0, 0⟩ ⟨20, 3, 0⟩).y = (⟨20, 3, 0⟩ : Vec3 ℝ).y ∧
      ((20 : ℝ) > 12 * 1.05 →
        norm3 ⟨(speedHardCap 12 20 ⟨20, 0, 0⟩ ⟨20, 3, 0⟩).x, 0,
          (speedHardCap 12 20 ⟨20, 0, 0⟩ ⟨20, 3, 0⟩).z⟩ = 12 * 1.05)) := by
  have h1 : (1 / 1000000 : ℝ) ≤ 12 := by norm_num
  have h2 : (⟨20, 0, 0⟩ : Vec3 ℝ) = ⟨(⟨20, 3, 0⟩ : Vec3 ℝ).x, 0, (⟨20, 3, 0⟩ : Vec3 ℝ).z⟩ := rfl
  have h3 : (20 : ℝ) = norm3 ⟨20, 0, 0⟩ := by
    show (20 : ℝ) = Real.sqrt _
    rw [show ((20 : ℝ) * 20 + 0 * 0 + 0 * 0 : ℝ) = 20 ^ 2 by norm_num]
    rw [Real.sqrt_sq (by norm_num : (0 : ℝ) ≤ 20)]
  exact ⟨h1, h2, h3, speed_hard_cap_invariant 12 20 ⟨20, 0, 0⟩ ⟨20, 3, 0⟩ h1 h2 h3⟩

/-- The cornering-speed formula of the source, `sqrt(ayMax / (1/R))`, equals
the product form `sqrt(ayMax * R)` of the spec (for every radius: in the
reals `a / (1/R) = a * R` unconditionally, and for `R = 0` both sides of the
JavaScript computation also collapse to the same value). -/
theorem turnArcSpeed_eq (ps : TurnParams) :
    turnArcSpeed ps = min ps.speedLimit (Real.sqrt (ps.maxLatAccel * ps.radius)) := by
  simp only [turnArcSpeed]
  rw [one_div, div_eq_mul_inv, inv_inv]

/-- The approach phase has exactly `turnApproachCount` samples. -/
theorem turnApproach_length (ps : TurnParams) :
    (turnApproach ps).length = turnApproachCount ps := by
  simp [turnApproach]

/-- The arc phase has exactly `turnArcCount` samples. -/
theorem turnArc_length (ps : TurnParams) :
    (turnArc ps).length = turnArcCount ps := by
  simp [turnArc]

/-- C8: every sample generated on the quarter-circle arc (the samples at
indices `nS ≤ i < nS + nA` of the generated path) has target speed exactly
`min(speedLimit, sqrt(maxLatAccel * R))`, which is at most
`sqrt(maxLatAccel * R)` and at most the global speed limit. -/
theorem turn_arc_curvature_speed_limit (ps : TurnParams) (i : ℕ)
    (h1 : turnApproachCount ps ≤ i) (h2 : i < turnApproachCount ps + turnArcCount ps) :
    ((turnGenerate ps).get? i).map Waypoint.targetSpeed =
      some (min ps.speedLimit (Real.sqrt (ps.maxLatAccel * ps.radius))) ∧
    min ps.speedLimit (Real.sqrt (ps.maxLatAccel * ps.radius)) ≤
      Real.sqrt (ps.maxLatAccel * ps.radius) ∧
    min ps.speedLimit (Real.sqrt (ps.maxLatAccel * ps.radius)) ≤ ps.speedLimit := by
  refine ⟨?_, min_le_right _ _, min_le_left _ _⟩
  simp only [turnGenerate]
  rw [fillDistances_targetSpeed]
  rw [List.append_assoc]
  rw [List.get?_append_right (by rw [turnApproach_length]; exact h1)]
  rw [turnApproach_length]
  rw [List.get?_append (by rw [turnArc_length]; omega)]
  simp only [turnArc]
  rw [List.get?_map, List.get?_range (by omega)]
  simp only [Option.map_some']
  show some (turnArcSpeed ps) = _
  exact congrArg some (turnArcSpeed_eq ps)

/-- Witness for C8 at the demo parameters (`R = 10`, `maxLatAccel = 8`): the
first arc sample sits at index 11 and its target speed is
`min(12, sqrt(80))`. -/
theorem turn_arc_curvature_speed_limit_witness :
    turnApproachCount turnParams0 ≤ 11 ∧
    11 < turnApproachCount turnParams0 + turnArcCount turnParams0 ∧
    (((turnGenerate turnParams0).get? 11).map Waypoint.targetSpeed =
      some (min turnParams0.speedLimit
        (Real.sqrt (turnParams0.maxLatAccel * turnParams0.radius))) ∧
      min turnParams0.speedLimit
          (Real.sqrt (turnParams0.maxLatAccel * turnParams0.radius)) ≤
        Real.sqrt (turnParams0.maxLatAccel * turnParams0.radius) ∧
      min turnParams0.speedLimit
          (Real.sqrt (turnParams0.maxLatAccel * turnParams0.radius)) ≤
        turnParams0.speedLimit) := by
  have hA : turnApproachCount turnParams0 = 11 := by
    simp only [turnApproachCount, turnParams0]
    norm_num
  have h4 : 4 ≤ turnArcCount turnParams0 := by
    simp only [turnArcCount, turnParams0]
    exact le_max_left 4 _
  have h1 : turnApproachCount turnParams0 ≤ 11 := by omega
  have h2 : 11 < turnApproachCount turnParams0 + turnArcCount turnParams0 := by omega
  exact ⟨h1, h2, turn_arc_curvature_speed_limit turnParams0 11 h1 h2⟩

/-! ### Pure-pursuit controller lemmas -/

/-- The empty-path branch of the lookahead query returns the query position. -/
theorem getLookaheadPoint_nil {K : Type} [LinearOrderedField K] (fuel : ℕ) (frm : Vec3 K)
    (Ld : K) : getLookaheadPoint fuel ([] : List (Waypoint K)) frm Ld = some frm := rfl

/-- Mirror of Math.sign at 0. -/
theorem jsSign_zero : jsSign 0 = 0 := by
  simp [jsSign]

/-- Mirror of the JavaScript value Math.atan2(0, 0) = 0. -/
theorem jsAtan2_zero_zero : jsAtan2 0 0 = 0 := by
  simp [jsAtan2]

/-- The downward wrapping loop leaves angles at or below pi unchanged. -/
theorem wrapDownLoop_of_not_gt (fuel : ℕ) (a : ℝ) (h : ¬ a > Real.pi) :
    wrapDownLoop fuel a = a := by
  cases fuel with
  | zero => rfl
  | succ g =>
      simp only [wrapDownLoop]
      rw [if_neg h]

/-- The upward wrapping loop leaves angles above -pi unchanged. -/
theorem wrapUpLoop_of_not_le (fuel : ℕ) (a : ℝ) (h : ¬ a ≤ -Real.pi) :
    wrapUpLoop fuel a = a := by
  cases fuel with
  | zero => rfl
  | succ g =>
      simp only [wrapUpLoop]
      rw [if_neg h]

/-- Zero is already wrapped. -/
theorem wrapAngle_zero (fuel : ℕ) : wrapAngle fuel 0 = 0 := by
  simp only [wrapAngle]
  rw [wrapDownLoop_of_not_gt fuel 0 (not_lt.mpr (le_of_lt Real.pi_pos))]
  exact wrapUpLoop_of_not_le fuel 0 (not_le.mpr (by linarith [Real.pi_pos]))

/-- An empty path has no cross-track segment. -/
theorem crosstrackEY_nil (pos : Vec3 ℝ) : crosstrackEY [] pos = 0 := rfl

/-- An empty path leaves the preview defaults `vWp = 8`, `tToMin = 1.2`. -/
theorem ppPreview_nil (pos : Vec3 ℝ) (v : ℝ) : ppPreview [] pos v = ⟨8, 12/10⟩ := rfl

/-- With zero curvature the desired speed is the preview speed. -/
theorem ppVDesired_zero_kappa (vWp ayMax : ℝ) : ppVDesired vWp 0 ayMax = vWp := by
  simp only [ppVDesired, abs_zero]
  rw [if_neg (by norm_num)]

/-- On an empty path with zero yaw the steering phase returns curvature 0:
the lookahead point is the vehicle position, the bearing is
`atan2(0,0) - 0 = 0`, and both the deadband branch and the corner-adaptive
branch collapse. -/
theorem ppSteerKappa_empty (fuel : ℕ) (pos vel : Vec3 ℝ) (v dtv : ℝ) (p : PPParams) :
    ppSteerKappa fuel [] ⟨pos, 0, vel, v, dtv⟩ p = some 0 := by
  simp only [ppSteerKappa, getLookaheadPoint, Option.some_bind, sub_self, jsAtan2_zero_zero,
    wrapAngle_zero, abs_zero, ite_self, Real.sin_zero, mul_zero, zero_div, add_zero, div_one,
    zero_sub, neg_zero]
  split_ifs with h
  · exact absurd h (by norm_num)
  · rfl

/-- On any empty-path call the steering phase completes. -/
theorem ppSteerKappa_empty_isSome (fuel : ℕ) (st : AutoState) (p : PPParams) :
    ∃ k, ppSteerKappa fuel [] st p = some k := by
  simp only [ppSteerKappa, getLookaheadPoint, Option.some_bind, Option.map_some']
  split_ifs <;> exact ⟨_, rfl⟩

/-- With zero previous yaw rate and zero curvature on a straight bearing, the
whole yaw-rate chain collapses to 0 (given nonnegative rate limit and
magnitude clamp bounds). -/
theorem ppYawRate_zero_eval (v dtv : ℝ) (p : PPParams) (h1 : 0 ≤ p.rRate * dtv)
    (h2 : 0 ≤ p.rMax) : ppYawRate 0 v dtv 0 0 p = 0 := by
  simp only [ppYawRate, clampF, zero_div, mul_zero, zero_mul, add_zero, zero_add,
    sub_zero, sub_self, abs_zero, neg_zero, jsSign_zero, ite_self, zero_sub]
  rw [min_eq_right h1, max_eq_right (neg_nonpos.mpr h1)]
  rw [min_eq_right h2, max_eq_right (neg_nonpos.mpr h2)]

/-- Concrete shape of the controller output on an empty path with zero yaw
and zero previous yaw rate: the yaw-rate command is 0 and the throttle is the
throttle block applied to the default preview values. -/
theorem purePursuit_empty_eval (fuel : ℕ) (p : PPParams) (pos vel : Vec3 ℝ) (v dtv vt : ℝ)
    (h1 : 0 ≤ p.rRate * dtv) (h2 : 0 ≤ p.rMax) :
    purePursuitController fuel [] ⟨pos, 0, vel, v, dtv⟩ ⟨0, some vt⟩ p =
      some ⟨ppThrottle v (ppVTarget vt 8 dtv) 8 (12/10) (p.mu * p.g), 0⟩ := by
  simp only [purePursuitController, ppSteerKappa_empty, Option.map_some', crosstrackEY_nil,
    ppPreview_nil, ppVDesired_zero_kappa, Option.getD_some]
  rw [ppYawRate_zero_eval v dtv p h1 h2]

/-- The throttle block always lands in the contract range `[-1, 1]`. -/
theorem ppThrottle_range (v vT vD tM ay : ℝ) :
    -1 ≤ ppThrottle v vT vD tM ay ∧ ppThrottle v vT vD tM ay ≤ 1 := by
  obtain ⟨ha1, ha2⟩ := clampF_mem ((22/100) * (vT - v)) (-1) 1 (by norm_num)
  obtain ⟨hd1, hd2⟩ :=
    clampF_mem ((v - vD) / max (6/10) (min (22/10) tM) / max (1/10) ay) 0 1 (by norm_num)
  simp only [ppThrottle]
  set t1 := clampF ((22/100) * (vT - v)) (-1) 1 with ht1
  set t2 := if |vT - v| < 3/10 then max 0 t1 else t1 with ht2
  have hb1 : -1 ≤ t2 := by
    rw [ht2]
    split_ifs
    · linarith [le_max_left (0 : ℝ) t1]
    · exact ha1
  have hb2 : t2 ≤ 1 := by
    rw [ht2]
    split_ifs
    · exact max_le (by norm_num) ha2
    · exact ha2
  set t3 := if vT - v < -(5/10) then max t2 (-(4/10)) else t2 with ht3
  have hc1 : -1 ≤ t3 := by
    rw [ht3]
    split_ifs
    · linarith [le_max_right t2 (-(4/10 : ℝ))]
    · exact hb1
  have hc2 : t3 ≤ 1 := by
    rw [ht3]
    split_ifs
    · exact max_le hb2 (by norm_num)
    · exact hb2
  split_ifs
  · constructor
    · exact le_min hc1 (by linarith)
    · exact le_trans (min_le_left _ _) hc2
  · exact ⟨hc1, hc2⟩

/-- The yaw-rate chain ends in the magnitude clamp, so its output is bounded
by `rMax` whenever `rMax` is nonnegative. -/
theorem ppYawRate_abs_le (prevY v dtv kappa eY : ℝ) (p : PPParams) (hr : 0 ≤ p.rMax) :
    |ppYawRate prevY v dtv kappa eY p| ≤ p.rMax := by
  simp only [ppYawRate, clampF]
  rw [abs_le]
  constructor
  · exact le_max_left _ _
  · exact max_le (by linarith) (min_le_left _ _)

/-- C6: for every path, vehicle state, previous state and parameter set with
`rMax >= 0`, any command the controller returns has throttle in `[-1, 1]` and
yaw rate of magnitude at most `rMax`. -/
theorem controller_output_ranges (fuel : ℕ) (wps : List (Waypoint ℝ)) (st : AutoState)
    (prev : PrevState) (p : PPParams) (cmd : AutoCmd) (hr : 0 ≤ p.rMax)
    (h : purePursuitController fuel wps st prev p = some cmd) :
    -1 ≤ cmd.throttle ∧ cmd.throttle ≤ 1 ∧ |cmd.yawRate| ≤ p.rMax := by
  simp only [purePursuitController] at h
  obtain ⟨kappa, hk, hcmd⟩ := Option.map_eq_some'.mp h
  have hthr : cmd.throttle =
      ppThrottle st.speed
        (ppVTarget (prev.vTarget.getD st.speed)
          (ppVDesired (ppPreview wps st.pos st.speed).vWp kappa (p.mu * p.g)) st.dt)
        (ppVDesired (ppPreview wps st.pos st.speed).vWp kappa (p.mu * p.g))
        (ppPreview wps st.pos st.speed).tToMin (p.mu * p.g) := by
    rw [← hcmd]
  have hyaw : cmd.yawRate =
      ppYawRate prev.yawRate st.speed st.dt kappa (crosstrackEY wps st.pos) p := by
    rw [← hcmd]
  obtain ⟨h1, h2⟩ := ppThrottle_range st.speed
    (ppVTarget (prev.vTarget.getD st.speed)
      (ppVDesired (ppPreview wps st.pos st.speed).vWp kappa (p.mu * p.g)) st.dt)
    (ppVDesired (ppPreview wps st.pos st.speed).vWp kappa (p.mu * p.g))
    (ppPreview wps st.pos st.speed).tToMin (p.mu * p.g)
  refine ⟨?_, ?_, ?_⟩
  · rw [hthr]; exact h1
  · rw [hthr]; exact h2
  · rw [hyaw]
    exact ppYawRate_abs_le prev.yawRate st.speed st.dt kappa (crosstrackEY wps st.pos) p hr

/-- Witness for C6 at a concrete empty-path call (the parameter set
`ppParams0` has `rMax = 1`): the returned command is `(-77/375, 0)` and both
range bounds hold. -/
theorem controller_output_ranges_witness :
    0 ≤ ppParams0.rMax ∧
    purePursuitController 100 [] ⟨⟨0, 0, 0⟩, 0, ⟨2, 0, 0⟩, 2, 1/60⟩ ⟨0, some 1⟩ ppParams0 =
      some ⟨-(77/375), 0⟩ ∧
    (-1 ≤ (AutoCmd.mk (-(77/375)) 0).throttle ∧ (AutoCmd.mk (-(77/375)) 0).throttle ≤ 1 ∧
      |(AutoCmd.mk (-(77/375)) 0).yawRate| ≤ ppParams0.rMax) := by
  have hr : (0 : ℝ) ≤ ppParams0.rMax := by norm_num [ppParams0]
  have heval : purePursuitController 100 [] ⟨⟨0, 0, 0⟩, 0, ⟨2, 0, 0⟩, 2, 1/60⟩
      ⟨0, some 1⟩ ppParams0 = some ⟨-(77/375), 0⟩ := by
    rw [purePursuit_empty_eval 100 ppParams0 ⟨0, 0, 0⟩ ⟨2, 0, 0⟩ 2 (1/60) 1
      (by norm_num [ppParams0]) hr]
    have hvt : ppVTarget 1 8 (1/60) = 16/15 := by
      simp only [ppVTarget]
      norm_num
    rw [hvt]
    have hth : ppThrottle 2 (16/15) 8 (12/10) (ppParams0.mu * ppParams0.g) = -(77/375) := by
      simp only [ppThrottle, clampF, ppParams0]
      norm_num [max_def, min_def, abs_of_nonpos, abs_of_nonneg]
    rw [hth]
  exact ⟨hr, heval,
    controller_output_ranges 100 [] ⟨⟨0, 0, 0⟩, 0, ⟨2, 0, 0⟩, 2, 1/60⟩ ⟨0, some 1⟩
      ppParams0 ⟨-(77/375), 0⟩ hr heval⟩

/-- C5 counterexample: with an empty waypoint list the controller does not
return the neutral command.  At rest with zero yaw, zero previous state and
`dt = 0.1` it returns throttle `11/125 = 0.088` (the speed target ramps up
toward the default preview speed 8 even with no path data). -/
theorem empty_path_not_neutral_cex :
    purePursuitController 100 [] ⟨⟨0, 0, 0⟩, 0, ⟨0, 0, 0⟩, 0, 1/10⟩ ⟨0, some 0⟩ ppParams0 =
      some ⟨11/125, 0⟩ ∧ (11/125 : ℝ) ≠ 0 := by
  refine ⟨?_, by norm_num⟩
  rw [purePursuit_empty_eval 100 ppParams0 ⟨0, 0, 0⟩ ⟨0, 0, 0⟩ 0 (1/10) 0
    (by norm_num [ppParams0]) (by norm_num [ppParams0])]
  have hvt : ppVTarget 0 8 (1/10) = 2/5 := by
    simp only [ppVTarget]
    norm_num
  rw [hvt]
  have hth : ppThrottle 0 (2/5) 8 (12/10) (ppParams0.mu * ppParams0.g) = 11/125 := by
    simp only [ppThrottle, clampF, ppParams0]
    norm_num [max_def, min_def]
  rw [hth]

/-- C5 amended: an empty waypoint path never errors out of the control loop:
the controller always returns a command, and that command obeys the contract
ranges (throttle in `[-1, 1]`, yaw-rate magnitude at most `rMax`), but it is
not the neutral command in general. -/
theorem empty_path_graceful (fuel : ℕ) (st : AutoState) (prev : PrevState) (p : PPParams)
    (hr : 0 ≤ p.rMax) :
    (purePursuitController fuel [] st prev p).isSome = true ∧
    -1 ≤ ((purePursuitController fuel [] st prev p).getD ⟨0, 0⟩).throttle ∧
    ((purePursuitController fuel [] st prev p).getD ⟨0, 0⟩).throttle ≤ 1 ∧
    |((purePursuitController fuel [] st prev p).getD ⟨0, 0⟩).yawRate| ≤ p.rMax := by
  obtain ⟨k, hk⟩ := ppSteerKappa_empty_isSome fuel st p
  have hc : purePursuitController fuel [] st prev p = some
      ⟨ppThrottle st.speed
        (ppVTarget (prev.vTarget.getD st.speed)
          (ppVDesired (ppPreview [] st.pos st.speed).vWp k (p.mu * p.g)) st.dt)
        (ppVDesired (ppPreview [] st.pos st.speed).vWp k (p.mu * p.g))
        (ppPreview [] st.pos st.speed).tToMin (p.mu * p.g),
       ppYawRate prev.yawRate st.speed st.dt k (crosstrackEY [] st.pos) p⟩ := by
    simp only [purePursuitController, hk, Option.map_some']
  rw [hc]
  simp only [Option.isSome_some, Option.getD_some]
  refine ⟨trivial, ?_, ?_, ?_⟩
  · exact (ppThrottle_range _ _ _ _ _).1
  · exact (ppThrottle_range _ _ _ _ _).2
  · exact ppYawRate_abs_le _ _ _ _ _ _ hr

/-- Witness for C5 amended at a concrete empty-path call with nonzero yaw,
speed and previous target. -/
theorem empty_path_graceful_witness :
    (0 : ℝ) ≤ ppParams0.rMax ∧
    ((purePursuitController 100 [] ⟨⟨0, 0, 0⟩, 1, ⟨3, 0, 0⟩, 3, 1/50⟩ ⟨0, some 2⟩
        ppParams0).isSome = true ∧
      -1 ≤ ((purePursuitController 100 [] ⟨⟨0, 0, 0⟩, 1, ⟨3, 0, 0⟩, 3, 1/50⟩ ⟨0, some 2⟩
        ppParams0).getD ⟨0, 0⟩).throttle ∧
      ((purePursuitController 100 [] ⟨⟨0, 0, 0⟩, 1, ⟨3, 0, 0⟩, 3, 1/50⟩ ⟨0, some 2⟩
        ppParams0).getD ⟨0, 0⟩).throttle ≤ 1 ∧
      |((purePursuitController 100 [] ⟨⟨0, 0, 0⟩, 1, ⟨3, 0, 0⟩, 3, 1/50⟩ ⟨0, some 2⟩
        ppParams0).getD ⟨0, 0⟩).yawRate| ≤ ppParams0.rMax) := by
  have hr : (0 : ℝ) ≤ ppParams0.rMax := by norm_num [ppParams0]
  exact ⟨hr, empty_path_graceful 100 ⟨⟨0, 0, 0⟩, 1, ⟨3, 0, 0⟩, 3, 1/50⟩ ⟨0, some 2⟩
    ppParams0 hr⟩

/-- Inside the ±0.3 m/s band, and when the overspeed feed-forward branch does
not fire, the throttle block never commands braking. -/
theorem ppThrottle_band_nonneg (v vT vD tM ay : ℝ) (hdv : |vT - v| < 3/10)
    (hov : ¬ v > vD + 2/10) : 0 ≤ ppThrottle v vT vD tM ay := by
  obtain ⟨hl, hu⟩ := abs_lt.mp hdv
  simp only [ppThrottle]
  rw [if_neg hov]
  rw [if_neg (by intro hcon; linarith : ¬ vT - v < -(5/10))]
  rw [if_pos hdv]
  exact le_max_left 0 _

/-- C7 amended: whenever the internally computed speed-target error satisfies
`|dv| < 0.3` and the overspeed feed-forward brake does not fire
(`speed <= vDesired + 0.2`), the returned throttle is nonnegative.  The
counterexample shows the feed-forward branch can push the throttle negative
inside the band, so the band guarantee only holds outside that branch. -/
theorem throttle_band_no_brake_without_ff (fuel : ℕ) (wps : List (Waypoint ℝ))
    (st : AutoState) (prev : PrevState) (p : PPParams) (kappa : ℝ) (cmd : AutoCmd)
    (hk : ppSteerKappa fuel wps st p = some kappa)
    (h : purePursuitController fuel wps st prev p = some cmd)
    (hdv : |ppVTarget (prev.vTarget.getD st.speed)
        (ppVDesired (ppPreview wps st.pos st.speed).vWp kappa (p.mu * p.g)) st.dt -
        st.speed| < 3/10)
    (hov : ¬ st.speed >
        ppVDesired (ppPreview wps st.pos st.speed).vWp kappa (p.mu * p.g) + 2/10) :
    0 ≤ cmd.throttle := by
  simp only [purePursuitController, hk, Option.map_some'] at h
  have hthr : cmd.throttle =
      ppThrottle st.speed
        (ppVTarget (prev.vTarget.getD st.speed)
          (ppVDesired (ppPreview wps st.pos st.speed).vWp kappa (p.mu * p.g)) st.dt)
        (ppVDesired (ppPreview wps st.pos st.speed).vWp kappa (p.mu * p.g))
        (ppPreview wps st.pos st.speed).tToMin (p.mu * p.g) := by
    rw [← Option.some.inj h]
  rw [hthr]
  exact ppThrottle_band_nonneg _ _ _ _ _ hdv hov

/-- C7 counterexample: with an empty path, speed 8.5, previous speed target
8.75 and `dt = 0.01`, the internal error is `dv = 0.22` (inside the ±0.3
band) yet the returned throttle is `-1/24 < 0`: the overspeed feed-forward
brake (speed 8.5 > vDesired 8 + 0.2) takes the more negative value. -/
theorem throttle_band_brake_cex :
    purePursuitController 100 [] ⟨⟨0, 0, 0⟩, 0, ⟨17/2, 0, 0⟩, 17/2, 1/100⟩
      ⟨0, some (35/4)⟩ ppParams0 = some ⟨-(1/24), 0⟩ ∧
    |ppVTarget (35/4) 8 (1/100) - 17/2| < 3/10 ∧
    (-(1/24) : ℝ) < 0 := by
  have hvt : ppVTarget (35/4) 8 (1/100) = 218/25 := by
    simp only [ppVTarget]
    norm_num
  refine ⟨?_, by rw [hvt]; norm_num [abs_lt], by norm_num⟩
  rw [purePursuit_empty_eval 100 ppParams0 ⟨0, 0, 0⟩ ⟨17/2, 0, 0⟩ (17/2) (1/100) (35/4)
    (by norm_num [ppParams0]) (by norm_num [ppParams0])]
  rw [hvt]
  have hth : ppThrottle (17/2) (218/25) 8 (12/10) (ppParams0.mu * ppParams0.g) = -(1/24) := by
    simp only [ppThrottle, clampF, ppParams0]
    norm_num [max_def, min_def]
  rw [hth]

/-- Witness for C7 amended at a concrete empty-path call: speed 0, previous
target 0, `dt = 1/60`; the error `dv = 1/15` is inside the band, no
overspeed, and the returned throttle `11/750` is nonnegative. -/
theorem throttle_band_no_brake_without_ff_witness :
    ppSteerKappa 100 [] ⟨⟨0, 0, 0⟩, 0, ⟨0, 0, 0⟩, 0, 1/60⟩ ppParams0 = some 0 ∧
    purePursuitController 100 [] ⟨⟨0, 0, 0⟩, 0, ⟨0, 0, 0⟩, 0, 1/60⟩ ⟨0, some 0⟩ ppParams0 =
      some ⟨11/750, 0⟩ ∧
    |ppVTarget ((Option.some (0 : ℝ)).getD 0)
        (ppVDesired (ppPreview [] ⟨0, 0, 0⟩ 0).vWp 0 (ppParams0.mu * ppParams0.g)) (1/60) -
        0| < 3/10 ∧
    ¬ (0 : ℝ) > ppVDesired (ppPreview [] ⟨0, 0, 0⟩ 0).vWp 0 (ppParams0.mu * ppParams0.g) +
        2/10 ∧
    0 ≤ (AutoCmd.mk (11/750) 0).throttle := by
  have hk : ppSteerKappa 100 [] ⟨⟨0, 0, 0⟩, 0, ⟨0, 0, 0⟩, 0, 1/60⟩ ppParams0 = some 0 :=
    ppSteerKappa_empty 100 ⟨0, 0, 0⟩ ⟨0, 0, 0⟩ 0 (1/60) ppParams0
  have hvd : ppVDesired (ppPreview [] ⟨0, 0, 0⟩ 0).vWp 0 (ppParams0.mu * ppParams0.g) = 8 := by
    rw [ppPreview_nil]
    exact ppVDesired_zero_kappa 8 _
  have hvt : ppVTarget 0 8 (1/60) = 1/15 := by
    simp only [ppVTarget]
    norm_num
  have heval : purePursuitController 100 [] ⟨⟨0, 0, 0⟩, 0, ⟨0, 0, 0⟩, 0, 1/60⟩
      ⟨0, some 0⟩ ppParams0 = some ⟨11/750, 0⟩ := by
    rw [purePursuit_empty_eval 100 ppParams0 ⟨0, 0, 0⟩ ⟨0, 0, 0⟩ 0 (1/60) 0
      (by norm_num [ppParams0]) (by norm_num [ppParams0])]
    rw [hvt]
    have hth : ppThrottle 0 (1/15) 8 (12/10) (ppParams0.mu * ppParams0.g) = 11/750 := by
      simp only [ppThrottle, clampF, ppParams0]
      norm_num [max_def, min_def]
    rw [hth]
  have hdv : |ppVTarget ((Option.some (0 : ℝ)).getD 0)
      (ppVDesired (ppPreview [] ⟨0, 0, 0⟩ 0).vWp 0 (ppParams0.mu * ppParams0.g)) (1/60) -
      0| < 3/10 := by
    rw [hvd]
    simp only [Option.getD_some]
    rw [hvt]
    norm_num [abs_lt]
  have hov : ¬ (0 : ℝ) > ppVDesired (ppPreview [] ⟨0, 0, 0⟩ 0).vWp 0
      (ppParams0.mu * ppParams0.g) + 2/10 := by
    rw [hvd]
    norm_num
  exact ⟨hk, heval, hdv, hov,
    throttle_band_no_brake_without_ff 100 [] ⟨⟨0, 0, 0⟩, 0, ⟨0, 0, 0⟩, 0, 1/60⟩
      ⟨0, some 0⟩ ppParams0 0 ⟨11/750, 0⟩ hk heval hdv hov⟩

end Minicar
